import Mathlib

/-!
Verification of the resilience / resource-control core of the `agent_toolbox`
repository: the advanced rate limiter (`advanced_rate_limiter.py`), the advanced
cache (`advanced_cache.py`) and the error-recovery composition
(`error_recovery.py`).

The Python code is shallowly embedded: wall-clock timestamps and float
quantities become rationals (`ℚ`), Python dicts become association lists that
preserve insertion order (matching dict iteration order), exceptions become
`Except`, and Python's `None`-as-value is modelled by `Option` so that a stored
`None` is indistinguishable from absence exactly as in the source.
-/

/-- Association-list lookup, mirroring Python `d[k]` / `k in d`. -/
def alookup {β : Type} (l : List (String × β)) (k : String) : Option β :=
  match l.find? (fun p => p.1 == k) with
  | some p => some p.2
  | none => none

/-- Association-list assignment, mirroring Python `d[k] = v`: an existing key
is updated in place (keeping its position in iteration order), a new key is
appended at the end. -/
def aset {β : Type} (l : List (String × β)) (k : String) (v : β) : List (String × β) :=
  match l with
  | [] => [(k, v)]
  | p :: rest => if p.1 == k then (k, v) :: rest else p :: aset rest k v

/-- Association-list deletion, mirroring Python `del d[k]`. -/
def adel {β : Type} (l : List (String × β)) (k : String) : List (String × β) :=
  match l with
  | [] => []
  | p :: rest => if p.1 == k then rest else p :: adel rest k

theorem alookup_aset_self {β : Type} (l : List (String × β)) (k : String) (v : β) :
    alookup (aset l k v) k = some v := by
  induction l with
  | nil => simp [aset, alookup, List.find?]
  | cons p rest ih =>
    by_cases h : p.1 == k
    · simp [aset, h, alookup, List.find?]
    · simp only [aset, h, if_false]
      simpa [alookup, List.find?, h] using ih

theorem alookup_aset_ne {β : Type} (l : List (String × β)) (k k' : String) (v : β)
    (h : ¬ k' = k) : alookup (aset l k v) k' = alookup l k' := by
  have hkk : (k == k') = false := beq_eq_false_iff_ne.mpr (fun he => h he.symm)
  induction l with
  | nil => simp [aset, alookup, List.find?, hkk]
  | cons p rest ih =>
    by_cases hp : p.1 == k
    · have hpk : p.1 = k := eq_of_beq hp
      simp [aset, hp, alookup, List.find?, hkk, hpk]
    · simp only [aset, hp, if_false]
      by_cases hq : p.1 == k'
      · simp [alookup, List.find?, hq]
      · simp only [alookup, List.find?] at ih ⊢
        simpa [hq] using ih

/-! ## Token bucket (`TokenBucket`, advanced_rate_limiter.py lines 44-79)

`tokens` and `max_tokens` are rationals (Python floats / ints), `last_refill`
is a wall-clock timestamp. -/

structure TokenBucket where
  max_tokens : ℚ
  refill_rate : ℚ
  tokens : ℚ
  last_refill : ℚ
deriving DecidableEq, Repr

/-- `TokenBucket.__init__`: the bucket starts full, `last_refill = time.time()`. -/
def TokenBucket.init (max_tokens refill_rate now : ℚ) : TokenBucket :=
  { max_tokens := max_tokens, refill_rate := refill_rate,
    tokens := max_tokens, last_refill := now }

/-- `TokenBucket.acquire(tokens=n)` at wall-clock time `now`: lazily refill
from elapsed time (clamped to capacity), then consume `n` tokens iff at least
`n` are available. Returns the success flag and the updated bucket. -/
def TokenBucket.acquire (b : TokenBucket) (n : ℚ) (now : ℚ) : Bool × TokenBucket :=
  let elapsed := now - b.last_refill
  let tokens_to_add := elapsed * b.refill_rate
  let refilled := min b.max_tokens (b.tokens + tokens_to_add)
  if n ≤ refilled then
    (true, { b with tokens := refilled - n, last_refill := now })
  else
    (false, { b with tokens := refilled, last_refill := now })

/-- Run a sequence of `acquire` calls, each given as `(now, n)`. -/
def TokenBucket.runAcquires (b : TokenBucket) (calls : List (ℚ × ℚ)) : TokenBucket :=
  match calls with
  | [] => b
  | c :: rest => TokenBucket.runAcquires (b.acquire c.2 c.1).2 rest

/-- A call trace is admissible after time `t`: call times never go backwards
(as wall-clock time does not) and each request size is nonnegative. -/
def ChronoCalls (t : ℚ) (calls : List (ℚ × ℚ)) : Prop :=
  match calls with
  | [] => True
  | c :: rest => t ≤ c.1 ∧ 0 ≤ c.2 ∧ ChronoCalls c.1 rest

theorem TokenBucket.acquire_bounds (b : TokenBucket) (n now : ℚ)
    (hrate : 0 ≤ b.refill_rate) (hlo : 0 ≤ b.tokens) (hhi : b.tokens ≤ b.max_tokens)
    (hn : 0 ≤ n) (htime : b.last_refill ≤ now) :
    0 ≤ (b.acquire n now).2.tokens ∧ (b.acquire n now).2.tokens ≤ (b.acquire n now).2.max_tokens ∧
      (b.acquire n now).2.max_tokens = b.max_tokens ∧
      (b.acquire n now).2.refill_rate = b.refill_rate ∧
      (b.acquire n now).2.last_refill = now := by
  have hadd : 0 ≤ (now - b.last_refill) * b.refill_rate :=
    mul_nonneg (by linarith) hrate
  have hmax : 0 ≤ b.max_tokens := le_trans hlo hhi
  have hrefill_lo : 0 ≤ min b.max_tokens (b.tokens + (now - b.last_refill) * b.refill_rate) :=
    le_min hmax (by linarith)
  have hrefill_hi : min b.max_tokens (b.tokens + (now - b.last_refill) * b.refill_rate) ≤
      b.max_tokens := min_le_left _ _
  by_cases h : n ≤ min b.max_tokens (b.tokens + (now - b.last_refill) * b.refill_rate)
  · simp only [TokenBucket.acquire, h, if_true]
    exact ⟨by linarith, by linarith, trivial, trivial, trivial⟩
  · simp only [TokenBucket.acquire, h, if_false]
    exact ⟨hrefill_lo, hrefill_hi, trivial, trivial, trivial⟩

theorem TokenBucket.runAcquires_bounds (calls : List (ℚ × ℚ)) (b : TokenBucket)
    (hrate : 0 ≤ b.refill_rate) (hlo : 0 ≤ b.tokens) (hhi : b.tokens ≤ b.max_tokens)
    (hchrono : ChronoCalls b.last_refill calls) :
    0 ≤ (b.runAcquires calls).tokens ∧
      (b.runAcquires calls).tokens ≤ (b.runAcquires calls).max_tokens ∧
      (b.runAcquires calls).max_tokens = b.max_tokens := by
  induction calls generalizing b with
  | nil => exact ⟨hlo, hhi, rfl⟩
  | cons c rest ih =>
    obtain ⟨ht, hn, hrest⟩ := hchrono
    obtain ⟨h1, h2, h3, h4, h5⟩ := TokenBucket.acquire_bounds b c.2 c.1 hrate hlo hhi hn ht
    have := ih (b.acquire c.2 c.1).2 (h4 ▸ hrate) h1 h2 (by rw [h5]; exact hrest)
    simpa [TokenBucket.runAcquires, h3] using this

/-- C8: for every sequence of `acquire(n)` calls at (nondecreasing wall-clock)
times, the `tokens` field of a token bucket built by `TokenBucket.__init__`
with nonnegative capacity and refill rate satisfies
`0 ≤ tokens ≤ max_tokens` after every call: the refill is clamped to capacity
and tokens are only decremented when at least `n` tokens are available. -/
theorem C8_token_bucket_invariant (max_tokens refill_rate t0 : ℚ)
    (calls : List (ℚ × ℚ))
    (hmax : 0 ≤ max_tokens) (hrate : 0 ≤ refill_rate)
    (hchrono : ChronoCalls t0 calls) :
    0 ≤ ((TokenBucket.init max_tokens refill_rate t0).runAcquires calls).tokens ∧
      ((TokenBucket.init max_tokens refill_rate t0).runAcquires calls).tokens ≤ max_tokens := by
  have h := TokenBucket.runAcquires_bounds calls (TokenBucket.init max_tokens refill_rate t0)
    hrate hmax le_rfl hchrono
  refine ⟨h.1, ?_⟩
  have h2 := h.2.1
  rw [h.2.2] at h2
  exact h2

/-- Witness for C8 at a concrete trace: capacity 5, refill rate 1, calls
acquiring 1, 2 and 3 tokens at times 0, 1 and 2. -/
theorem C8_token_bucket_invariant_witness :
    (0:ℚ) ≤ 5 ∧ (0:ℚ) ≤ 1 ∧ ChronoCalls 0 [(0, 1), (1, 2), (2, 3)] ∧
      (0 ≤ ((TokenBucket.init 5 1 0).runAcquires [(0, 1), (1, 2), (2, 3)]).tokens ∧
        ((TokenBucket.init 5 1 0).runAcquires [(0, 1), (1, 2), (2, 3)]).tokens ≤ 5) :=
  ⟨by norm_num, by norm_num, by norm_num [ChronoCalls],
    C8_token_bucket_invariant 5 1 0 [(0, 1), (1, 2), (2, 3)] (by norm_num) (by norm_num)
      (by norm_num [ChronoCalls])⟩

/-! ## Retry mechanism (`RetryMechanism.execute`, error_recovery.py lines 65-103)

The wrapped function is modelled as `f : ℕ → Except ε α` giving the outcome of
its `i`-th invocation. The two `any(isinstance(e, ...))` membership tests over
`config.stop_on` and `config.exceptions` are modelled by the Boolean predicates
`stopOn` and `retryOn` on the exception type. Delays (`time.sleep`) have no
observable effect on the result or the invocation count and are elided. The
result is the pair of the Python return (`ok (some v)` for a returned value,
`ok none` for the implicit `None` return when the loop body never runs,
`error e` for a raised exception) and the number of invocations of `f`. -/

def retryLoop {ε α : Type} (f : ℕ → Except ε α) (stopOn retryOn : ε → Bool) :
    ℕ → ℕ → Option ε → Except ε (Option α) × ℕ
  | 0, calls, last =>
    (match last with
     | some e => Except.error e
     | none => Except.ok none, calls)
  | remaining + 1, calls, _last =>
    match f calls with
    | Except.ok v => (Except.ok (some v), calls + 1)
    | Except.error e =>
      if stopOn e then (Except.error e, calls + 1)
      else if retryOn e then retryLoop f stopOn retryOn remaining (calls + 1) (some e)
      else (Except.error e, calls + 1)

/-- `RetryMechanism.execute`: run the `for attempt in range(max_attempts)` loop.
`max_attempts` is a Python `int`, hence `ℤ`; `range` of a nonpositive bound is
empty, which `Int.toNat` reproduces. -/
def RetryMechanism.execute {ε α : Type} (max_attempts : ℤ) (stopOn retryOn : ε → Bool)
    (f : ℕ → Except ε α) : Except ε (Option α) × ℕ :=
  retryLoop f stopOn retryOn max_attempts.toNat 0 none

theorem retryLoop_ok_after_failures {ε α : Type} (stopOn retryOn : ε → Bool)
    (f : ℕ → Except ε α) (v : α) (k : ℕ) :
    ∀ (remaining calls : ℕ) (last : Option ε), k < remaining →
      (∀ j, j < k → ∃ e, f (calls + j) = Except.error e ∧ stopOn e = false ∧ retryOn e = true) →
      f (calls + k) = Except.ok v →
      retryLoop f stopOn retryOn remaining calls last = (Except.ok (some v), calls + k + 1) := by
  induction k with
  | zero =>
    intro remaining calls last hk hfail hsucc
    obtain ⟨r, rfl⟩ : ∃ r, remaining = r + 1 := ⟨remaining - 1, by omega⟩
    have hf : f calls = Except.ok v := by simpa using hsucc
    simp [retryLoop, hf]
  | succ k ih =>
    intro remaining calls last hk hfail hsucc
    obtain ⟨r, rfl⟩ : ∃ r, remaining = r + 1 := ⟨remaining - 1, by omega⟩
    obtain ⟨e, he, hs, hr⟩ := hfail 0 (Nat.succ_pos k)
    have he' : f calls = Except.error e := by simpa using he
    have step := ih r (calls + 1) (some e) (by omega)
      (fun j hj => by
        obtain ⟨e', h1, h2, h3⟩ := hfail (j + 1) (by omega)
        refine ⟨e', ?_, h2, h3⟩
        rw [show calls + 1 + j = calls + (j + 1) by omega]
        exact h1)
      (by rw [show calls + 1 + k = calls + (k + 1) by omega]; exact hsucc)
    rw [show calls + (k + 1) + 1 = calls + 1 + k + 1 by omega]
    simpa [retryLoop, he', hs, hr] using step

/-- C5: a function raising retryable (non-stop) exceptions on exactly `k` calls
with `k < max_attempts` and then succeeding makes `RetryMechanism.execute`
return the success value after exactly `k + 1` invocations; a function always
raising an exception matching the `stop_on` set is invoked exactly once and
that exception propagates immediately. -/
theorem C5_retry_invocation_counts {ε α : Type} (stopOn retryOn : ε → Bool)
    (max_attempts : ℤ) (f g : ℕ → Except ε α) (k : ℕ) (v : α) (e : ε)
    (hk : (k : ℤ) < max_attempts)
    (hfail : ∀ i, i < k → ∃ e', f i = Except.error e' ∧ stopOn e' = false ∧ retryOn e' = true)
    (hsucc : f k = Except.ok v)
    (hg : g 0 = Except.error e) (hstop : stopOn e = true) :
    RetryMechanism.execute max_attempts stopOn retryOn f = (Except.ok (some v), k + 1) ∧
      RetryMechanism.execute max_attempts stopOn retryOn g = (Except.error e, 1) := by
  constructor
  · unfold RetryMechanism.execute
    have hk' : k < max_attempts.toNat := by omega
    simpa using retryLoop_ok_after_failures stopOn retryOn f v k max_attempts.toNat 0 none hk'
      (by simpa using hfail) (by simpa using hsucc)
  · unfold RetryMechanism.execute
    obtain ⟨r, hr⟩ : ∃ r, max_attempts.toNat = r + 1 := ⟨max_attempts.toNat - 1, by omega⟩
    rw [hr]
    simp [retryLoop, hg, hstop]

/-- Witness for C5: a function failing retryably once then returning `7` with
`max_attempts = 3` yields `7` in 2 invocations; a function always raising a
stop exception yields that exception in 1 invocation. -/
theorem C5_retry_invocation_counts_witness :
    RetryMechanism.execute 3 (fun b => b) (fun _ => true)
        (fun i => if i = 0 then Except.error false else Except.ok 7) = (Except.ok (some 7), 2) ∧
      RetryMechanism.execute 3 (fun b => b) (fun _ => true)
        (fun _ : ℕ => (Except.error true : Except Bool ℕ)) = (Except.error true, 1) :=
  C5_retry_invocation_counts (fun b => b) (fun _ => true) 3
    (fun i => if i = 0 then Except.error false else Except.ok 7)
    (fun _ => Except.error true) 1 7 true (by norm_num)
    (fun i hi => by interval_cases i; exact ⟨false, rfl, rfl, rfl⟩)
    (by norm_num) rfl rfl

/-- C10: with `max_attempts ≤ 0` the attempt loop body never runs, so
`RetryMechanism.execute` invokes the function zero times and returns the
implicit Python `None` without raising. -/
theorem C10_retry_nonpositive_max_attempts {ε α : Type} (max_attempts : ℤ)
    (stopOn retryOn : ε → Bool) (f : ℕ → Except ε α) (h : max_attempts ≤ 0) :
    RetryMechanism.execute max_attempts stopOn retryOn f = (Except.ok none, 0) := by
  unfold RetryMechanism.execute
  rw [Int.toNat_of_nonpos h]
  rfl

/-- Witness for C10 at `max_attempts = -2` with a function that would succeed
if it were ever invoked. -/
theorem C10_retry_nonpositive_max_attempts_witness :
    (-2 : ℤ) ≤ 0 ∧
      RetryMechanism.execute (-2) (fun _ : Unit => true) (fun _ => true)
        (fun _ : ℕ => (Except.ok 5 : Except Unit ℕ)) = (Except.ok none, 0) :=
  ⟨by norm_num,
    C10_retry_nonpositive_max_attempts (-2) (fun _ => true) (fun _ => true)
      (fun _ => Except.ok 5) (by norm_num)⟩

/-! ## Error recovery orchestrator stats (`ErrorRecovery.execute`,
error_recovery.py lines 333-411)

Only the stats bookkeeping is at issue in the claim; the retry/circuit pipeline
wrapped around the user function is abstracted by its final outcome `primary`
(`ok v` when the pipeline returned, `error e` when it raised), and the fallback
mechanism by `fallback` (`none` when no fallback mechanism is configured,
otherwise the outcome of `FallbackMechanism.execute`). The counter updates
follow the source line by line: `total_calls` first, then `successful_calls`
on pipeline success; on pipeline failure `failed_calls`, and then — if the
fallback succeeds — `fallbacks_used` and `successful_calls`, with the earlier
`failed_calls` increment left in place. -/

structure RecoveryStats where
  total_calls : ℕ
  successful_calls : ℕ
  failed_calls : ℕ
  retries_used : ℕ
  circuit_breaker_opens : ℕ
  fallbacks_used : ℕ
deriving DecidableEq, Repr

/-- The zeroed stats dict built in `ErrorRecovery.__init__` / `reset_stats`. -/
def RecoveryStats.zero : RecoveryStats :=
  { total_calls := 0, successful_calls := 0, failed_calls := 0,
    retries_used := 0, circuit_breaker_opens := 0, fallbacks_used := 0 }

def ErrorRecovery.execute {ε α : Type} (s : RecoveryStats) (primary : Except ε α)
    (fallback : Option (Except ε α)) : Except ε α × RecoveryStats :=
  let s1 := { s with total_calls := s.total_calls + 1 }
  match primary with
  | Except.ok v => (Except.ok v, { s1 with successful_calls := s1.successful_calls + 1 })
  | Except.error e =>
    let s2 := { s1 with failed_calls := s1.failed_calls + 1 }
    match fallback with
    | some (Except.ok v) =>
      (Except.ok v,
        { s2 with fallbacks_used := s2.fallbacks_used + 1,
                  successful_calls := s2.successful_calls + 1 })
    | some (Except.error _) => (Except.error e, s2)
    | none => (Except.error e, s2)

/-- A sequence of `ErrorRecovery.execute` calls, threading the stats. -/
def ErrorRecovery.runCalls {ε α : Type} (s : RecoveryStats)
    (calls : List (Except ε α × Option (Except ε α))) : RecoveryStats :=
  match calls with
  | [] => s
  | c :: rest => ErrorRecovery.runCalls (ErrorRecovery.execute s c.1 c.2).2 rest

/-- A call whose retry/circuit pipeline raised but whose fallback succeeded. -/
def isFallbackSuccess {ε α : Type} (c : Except ε α × Option (Except ε α)) : Bool :=
  match c with
  | (Except.error _, some (Except.ok _)) => true
  | _ => false

/-- C1 counterexample: a single `execute` call whose primary path fails and
whose fallback succeeds increments `failed_calls` (to 1) in addition to
`successful_calls`, so `successful_calls + failed_calls ≠ total_calls`. -/
theorem C1_counterexample :
    (ErrorRecovery.execute RecoveryStats.zero (Except.error ())
        (some (Except.ok (0 : ℕ)))).2.failed_calls = 1 ∧
      ¬ ((ErrorRecovery.execute RecoveryStats.zero (Except.error ())
            (some (Except.ok (0 : ℕ)))).2.successful_calls +
          (ErrorRecovery.execute RecoveryStats.zero (Except.error ())
            (some (Except.ok (0 : ℕ)))).2.failed_calls =
          (ErrorRecovery.execute RecoveryStats.zero (Except.error ())
            (some (Except.ok (0 : ℕ)))).2.total_calls) := by
  decide

theorem ErrorRecovery.execute_stats_step {ε α : Type} (s : RecoveryStats)
    (p : Except ε α) (fb : Option (Except ε α)) :
    (ErrorRecovery.execute s p fb).2.total_calls = s.total_calls + 1 ∧
      (ErrorRecovery.execute s p fb).2.successful_calls +
          (ErrorRecovery.execute s p fb).2.failed_calls =
        s.successful_calls + s.failed_calls + 1 +
          (if isFallbackSuccess (p, fb) then 1 else 0) := by
  rcases p with e | v
  · rcases fb with _ | fbr
    · simp [ErrorRecovery.execute, isFallbackSuccess]
      omega
    · rcases fbr with e' | w
      · simp [ErrorRecovery.execute, isFallbackSuccess]
        omega
      · simp [ErrorRecovery.execute, isFallbackSuccess]
        omega
  · simp [ErrorRecovery.execute, isFallbackSuccess]
    omega

theorem ErrorRecovery.runCalls_stats {ε α : Type}
    (calls : List (Except ε α × Option (Except ε α))) :
    ∀ s : RecoveryStats,
      (ErrorRecovery.runCalls s calls).total_calls = s.total_calls + calls.length ∧
        (ErrorRecovery.runCalls s calls).successful_calls +
            (ErrorRecovery.runCalls s calls).failed_calls =
          s.successful_calls + s.failed_calls + calls.length +
            (calls.filter isFallbackSuccess).length := by
  induction calls with
  | nil => intro s; simp [ErrorRecovery.runCalls]
  | cons c rest ih =>
    intro s
    obtain ⟨h1, h2⟩ := ErrorRecovery.execute_stats_step s c.1 c.2
    obtain ⟨ih1, ih2⟩ := ih (ErrorRecovery.execute s c.1 c.2).2
    have hcc : (c.1, c.2) = c := rfl
    rw [hcc] at h2
    constructor
    · simp only [ErrorRecovery.runCalls, List.length_cons]
      omega
    · simp only [ErrorRecovery.runCalls, List.length_cons, List.filter_cons]
      cases hfb : isFallbackSuccess c
      · rw [hfb] at h2
        norm_num at h2
        simp only [Bool.false_eq_true, if_false]
        omega
      · rw [hfb] at h2
        norm_num at h2
        simp only [if_true, List.length_cons]
        omega

/-- C1 amended: `total_calls` is incremented exactly once per `execute` call,
but a call whose primary/retry path fails and whose fallback succeeds
increments `failed_calls` as well as `successful_calls` and `fallbacks_used`
(the earlier `failed_calls` increment is never undone); hence after any
sequence of `execute` calls starting from zeroed stats,
`successful_calls + failed_calls = total_calls + (number of fallback successes)`. -/
theorem C1_amended_stats_invariant {ε α : Type}
    (calls : List (Except ε α × Option (Except ε α))) :
    (ErrorRecovery.runCalls RecoveryStats.zero calls).total_calls = calls.length ∧
      (ErrorRecovery.runCalls RecoveryStats.zero calls).successful_calls +
          (ErrorRecovery.runCalls RecoveryStats.zero calls).failed_calls =
        (ErrorRecovery.runCalls RecoveryStats.zero calls).total_calls +
          (calls.filter isFallbackSuccess).length := by
  obtain ⟨h1, h2⟩ := ErrorRecovery.runCalls_stats calls RecoveryStats.zero
  constructor
  · simpa [RecoveryStats.zero] using h1
  · rw [h1]
    simpa [RecoveryStats.zero] using h2

/-! ## Circuit breaker (`CircuitBreaker`, error_recovery.py lines 142-248)

Timestamps are rationals. The wrapped call's outcome is a `Bool` (every raised
exception is assumed to match `config.expected_exception`, i.e. to qualify as
a circuit failure, as with the default `Exception`). `call` returns `none`
when the breaker is OPEN and raises `CircuitBreakerOpenError` without invoking
the function, and `some succeeds` otherwise. The Python method names
`_update_state`, `_on_success`, `_on_failure` are kept without the leading
underscore. -/

structure CircuitBreakerConfig where
  failure_threshold : ℕ
  recovery_timeout : ℚ
  success_threshold : ℕ
  monitoring_window : ℚ
deriving DecidableEq, Repr

inductive CircuitState where
  | CLOSED
  | OPEN
  | HALF_OPEN
deriving DecidableEq, Repr

structure CircuitBreaker where
  state : CircuitState
  failure_count : ℕ
  success_count : ℕ
  last_failure_time : Option ℚ
  failure_times : List ℚ
deriving DecidableEq, Repr

/-- `CircuitBreaker.__init__`. -/
def CircuitBreaker.init : CircuitBreaker :=
  { state := CircuitState.CLOSED, failure_count := 0, success_count := 0,
    last_failure_time := none, failure_times := [] }

/-- `CircuitBreaker._update_state`: prune failures outside the monitoring
window (recomputing `failure_count` as the length of the pruned list), then
handle the OPEN → HALF_OPEN and HALF_OPEN → CLOSED transitions. -/
def CircuitBreaker.update_state (cfg : CircuitBreakerConfig) (cb : CircuitBreaker)
    (now : ℚ) : CircuitBreaker :=
  let ft := cb.failure_times.filter (fun t => now - cfg.monitoring_window < t)
  let cb1 := { cb with failure_times := ft, failure_count := ft.length }
  match cb1.state with
  | CircuitState.OPEN =>
    match cb1.last_failure_time with
    | some lt =>
      if cfg.recovery_timeout ≤ now - lt then
        { cb1 with state := CircuitState.HALF_OPEN, success_count := 0 }
      else cb1
    | none => cb1
  | CircuitState.HALF_OPEN =>
    if cfg.success_threshold ≤ cb1.success_count then
      { cb1 with state := CircuitState.CLOSED, failure_count := 0, failure_times := [] }
    else cb1
  | CircuitState.CLOSED => cb1

/-- `CircuitBreaker._on_success`: in HALF_OPEN count the success, in CLOSED
decrement the failure count floored at 0 (`max(0, failure_count - 1)`,
which is `ℕ` subtraction). -/
def CircuitBreaker.on_success (cb : CircuitBreaker) : CircuitBreaker :=
  match cb.state with
  | CircuitState.HALF_OPEN => { cb with success_count := cb.success_count + 1 }
  | CircuitState.CLOSED => { cb with failure_count := cb.failure_count - 1 }
  | CircuitState.OPEN => cb

/-- `CircuitBreaker._on_failure`: record the failure timestamp, then open the
circuit from CLOSED when the count reaches the threshold, or from HALF_OPEN on
any failure. -/
def CircuitBreaker.on_failure (cfg : CircuitBreakerConfig) (cb : CircuitBreaker)
    (now : ℚ) : CircuitBreaker :=
  let cb1 := { cb with failure_times := cb.failure_times ++ [now],
                       failure_count := cb.failure_count + 1,
                       last_failure_time := some now }
  match cb1.state with
  | CircuitState.CLOSED =>
    if cfg.failure_threshold ≤ cb1.failure_count then
      { cb1 with state := CircuitState.OPEN }
    else cb1
  | CircuitState.HALF_OPEN =>
    { cb1 with state := CircuitState.OPEN, success_count := 0 }
  | CircuitState.OPEN => cb1

/-- `CircuitBreaker.call` at time `now` with a wrapped call that succeeds iff
`succeeds`. -/
def CircuitBreaker.call (cfg : CircuitBreakerConfig) (cb : CircuitBreaker)
    (now : ℚ) (succeeds : Bool) : Option Bool × CircuitBreaker :=
  let cb1 := CircuitBreaker.update_state cfg cb now
  match cb1.state with
  | CircuitState.OPEN => (none, cb1)
  | CircuitState.CLOSED =>
    if succeeds then (some true, CircuitBreaker.on_success cb1)
    else (some false, CircuitBreaker.on_failure cfg cb1 now)
  | CircuitState.HALF_OPEN =>
    if succeeds then (some true, CircuitBreaker.on_success cb1)
    else (some false, CircuitBreaker.on_failure cfg cb1 now)

/-- A sequence of `call`s, each given as `(now, succeeds)`. -/
def CircuitBreaker.runCalls (cfg : CircuitBreakerConfig) (cb : CircuitBreaker)
    (calls : List (ℚ × Bool)) : CircuitBreaker :=
  match calls with
  | [] => cb
  | c :: rest => CircuitBreaker.runCalls cfg (CircuitBreaker.call cfg cb c.1 c.2).2 rest

/-- C2 counterexample: with `failure_threshold = 3` and `monitoring_window =
300`, the call sequence fail, fail, success, fail at times 0, 1, 2, 3 (all
within the monitoring window) leaves the breaker OPEN, not CLOSED: the success
decrement of `failure_count` is overwritten at the next call when
`_update_state` recomputes the count from `failure_times`, which successes
never shrink. -/
theorem C2_counterexample :
    (CircuitBreaker.runCalls
        { failure_threshold := 3, recovery_timeout := 60,
          success_threshold := 3, monitoring_window := 300 }
        CircuitBreaker.init
        [(0, false), (1, false), (2, true), (3, false)]).state = CircuitState.OPEN := by
  norm_num [CircuitBreaker.runCalls, CircuitBreaker.call, CircuitBreaker.update_state,
    CircuitBreaker.on_failure, CircuitBreaker.on_success, CircuitBreaker.init, List.filter]

theorem CircuitBreaker.closed_fail_open_iff (cfg : CircuitBreakerConfig)
    (cb : CircuitBreaker) (now : ℚ) (hclosed : cb.state = CircuitState.CLOSED) :
    (CircuitBreaker.call cfg cb now false).2.state = CircuitState.OPEN ↔
      cfg.failure_threshold ≤
        (cb.failure_times.filter (fun t => now - cfg.monitoring_window < t)).length + 1 := by
  by_cases hth : cfg.failure_threshold ≤
      (cb.failure_times.filter (fun t => now - cfg.monitoring_window < t)).length + 1
  · simp [CircuitBreaker.call, CircuitBreaker.update_state, CircuitBreaker.on_failure,
      hclosed, hth]
  · simp [CircuitBreaker.call, CircuitBreaker.update_state, CircuitBreaker.on_failure,
      hclosed, hth]

/-- C2 amended: in CLOSED state each qualifying failure appends a timestamp,
and the breaker transitions to OPEN exactly when the number of failure
timestamps retained within the monitoring window, including the new one,
reaches `failure_threshold`; the success decrement of `failure_count` is
overwritten when the next call recomputes the count from the timestamps, so
with `failure_threshold = 3` the sequence fail, fail, success, fail (all
within the window) leaves the breaker OPEN. -/
theorem C2_amended_open_on_windowed_failures (cfg : CircuitBreakerConfig)
    (cb : CircuitBreaker) (now : ℚ) (hclosed : cb.state = CircuitState.CLOSED) :
    ((CircuitBreaker.call cfg cb now false).2.state = CircuitState.OPEN ↔
        cfg.failure_threshold ≤
          (cb.failure_times.filter (fun t => now - cfg.monitoring_window < t)).length + 1) ∧
      (CircuitBreaker.runCalls
          { failure_threshold := 3, recovery_timeout := 60,
            success_threshold := 3, monitoring_window := 300 }
          CircuitBreaker.init
          [(0, false), (1, false), (2, true), (3, false)]).state = CircuitState.OPEN :=
  ⟨CircuitBreaker.closed_fail_open_iff cfg cb now hclosed, by
    norm_num [CircuitBreaker.runCalls, CircuitBreaker.call, CircuitBreaker.update_state,
      CircuitBreaker.on_failure, CircuitBreaker.on_success, CircuitBreaker.init, List.filter]⟩

/-- Witness for C2's amended theorem: the breaker state reached after
fail(0), fail(1), success(2) — CLOSED with `failure_times = [0, 1]` — opens on
the failure at time 3 since three timestamps then fall in the window. -/
theorem C2_amended_open_on_windowed_failures_witness :
    ({ state := CircuitState.CLOSED, failure_count := 1, success_count := 0,
       last_failure_time := some 1, failure_times := [0, 1] } : CircuitBreaker).state =
        CircuitState.CLOSED ∧
      ((CircuitBreaker.call
          { failure_threshold := 3, recovery_timeout := 60,
            success_threshold := 3, monitoring_window := 300 }
          { state := CircuitState.CLOSED, failure_count := 1, success_count := 0,
            last_failure_time := some 1, failure_times := [0, 1] }
          3 false).2.state = CircuitState.OPEN ↔
        (3 : ℕ) ≤ (([0, 1] : List ℚ).filter (fun t => (3 : ℚ) - 300 < t)).length + 1) :=
  ⟨rfl,
    (C2_amended_open_on_windowed_failures
      { failure_threshold := 3, recovery_timeout := 60,
        success_threshold := 3, monitoring_window := 300 }
      { state := CircuitState.CLOSED, failure_count := 1, success_count := 0,
        last_failure_time := some 1, failure_times := [0, 1] }
      3 rfl).1⟩

/-! ## Rate limit registry (`AdvancedRateLimiter`, advanced_rate_limiter.py
lines 223-439)

Limiters held by the registry are modelled as token buckets, the default and
representative algorithm of `add_limiter` (the claims under study concern the
registry's composition logic, not the per-algorithm behaviour). `check_limits`
threads the mutated registry state; `acquire_with_backoff` additionally
returns the list of `time.sleep` durations it performed, with the wall-clock
time of each attempt supplied by `times`. -/

structure RateLimitConfig where
  max_requests : ℕ
  time_window : ℚ
  burst_allowance : ℕ
  backoff_factor : ℚ
  max_backoff : ℚ
deriving DecidableEq, Repr

structure AdvancedRateLimiter where
  limiters : List (String × TokenBucket)
  hierarchical_limits : List (String × List (String × RateLimitConfig))
  global_limiters : List (String × TokenBucket)
  backoff_times : List (String × ℚ)
deriving DecidableEq, Repr

/-- `AdvancedRateLimiter.add_limiter` (token-bucket branch): capacity
`max_requests + burst_allowance`, refill rate `max_requests / time_window`. -/
def AdvancedRateLimiter.add_limiter (st : AdvancedRateLimiter) (name : String)
    (config : RateLimitConfig) (scope : String) (now : ℚ) : AdvancedRateLimiter :=
  let key := scope ++ ":" ++ name
  let limiter := TokenBucket.init
    ((config.max_requests : ℚ) + (config.burst_allowance : ℚ))
    ((config.max_requests : ℚ) / config.time_window) now
  { st with limiters := aset st.limiters key limiter }

/-- The `for global_key, limiter in self.global_limiters.items()` loop in
`check_limits`: acquire from each in insertion order, returning `False` at the
first denial (limiters after the failing one are left untouched; the failing
one keeps its refill-updated state). -/
def acquireGlobals (now : ℚ) : List (String × TokenBucket) →
    Bool × List (String × TokenBucket)
  | [] => (true, [])
  | p :: rest =>
    let res := (p.2).acquire 1 now
    if res.1 then
      let restRes := acquireGlobals now rest
      (restRes.1, (p.1, res.2) :: restRes.2)
    else (false, (p.1, res.2) :: rest)

def AdvancedRateLimiter.check_globals (st : AdvancedRateLimiter) (now : ℚ) :
    Bool × AdvancedRateLimiter :=
  let g := acquireGlobals now st.global_limiters
  (g.1, { st with global_limiters := g.2 })

/-- Render an optional string the way a Python f-string renders the value
(`None` becomes `"None"`). -/
def pyOptStr : Option String → String
  | some s => s
  | none => "None"

/-- The hierarchical-limits block of `check_limits`: guarded by the truthiness
of `user_id and resource`, it lazily creates the per-(user, resource) limiter
under key `user:{user_id}:{resource}` and acquires from it. -/
def AdvancedRateLimiter.check_hierarchical (st : AdvancedRateLimiter)
    (user_id resource : Option String) (now : ℚ) : Bool × AdvancedRateLimiter :=
  match user_id, resource with
  | some u, some r =>
    if u = "" ∨ r = "" then AdvancedRateLimiter.check_globals st now
    else
      match alookup st.hierarchical_limits u with
      | some resmap =>
        match alookup resmap r with
        | some config =>
          let user_key := "user" ++ ":" ++ (u ++ ":" ++ r)
          let st1 :=
            match alookup st.limiters user_key with
            | none => AdvancedRateLimiter.add_limiter st (u ++ ":" ++ r) config "user" now
            | some _ => st
          match alookup st1.limiters user_key with
          | some b =>
            let res := b.acquire 1 now
            let st2 := { st1 with limiters := aset st1.limiters user_key res.2 }
            if res.1 then AdvancedRateLimiter.check_globals st2 now
            else (false, st2)
          | none => (false, st1)
        | none => AdvancedRateLimiter.check_globals st now
      | none => AdvancedRateLimiter.check_globals st now
  | _, _ => AdvancedRateLimiter.check_globals st now

/-- `AdvancedRateLimiter.check_limits`: named limiter, then hierarchical
limits, then global limiters, returning `False` at the first denial without
undoing earlier acquisitions. -/
def AdvancedRateLimiter.check_limits (st : AdvancedRateLimiter) (name scope : String)
    (user_id resource : Option String) (now : ℚ) : Bool × AdvancedRateLimiter :=
  let key := scope ++ ":" ++ name
  match alookup st.limiters key with
  | some b =>
    let res := b.acquire 1 now
    let st1 := { st with limiters := aset st.limiters key res.2 }
    if res.1 then AdvancedRateLimiter.check_hierarchical st1 user_id resource now
    else (false, st1)
  | none => AdvancedRateLimiter.check_hierarchical st user_id resource now

/-- `AdvancedRateLimiter._get_config`: the source is a stub — "This would need
to be implemented to store configs" — and always returns `None`. -/
def AdvancedRateLimiter.get_config (name scope : String) : Option RateLimitConfig :=
  none

/-- The `for attempt in range(max_attempts)` loop of `acquire_with_backoff`.
`fuel` counts the remaining iterations (initially `max_attempts`, so
`fuel = max_attempts - attempt` throughout); the accumulated `sleeps` list
records each `time.sleep(self.backoff_times[key])` duration. -/
def AdvancedRateLimiter.backoffLoop (name scope : String) (user_id resource : Option String)
    (key : String) (max_attempts : ℕ) (times : ℕ → ℚ) :
    ℕ → ℕ → AdvancedRateLimiter → List ℚ → Bool × AdvancedRateLimiter × List ℚ
  | 0, _, st, sleeps => (false, st, sleeps)
  | fuel + 1, attempt, st, sleeps =>
    let res := st.check_limits name scope user_id resource (times attempt)
    if res.1 then
      (true, { res.2 with backoff_times := aset res.2.backoff_times key 0 }, sleeps)
    else
      if attempt < max_attempts - 1 then
        let st2 :=
          match alookup res.2.backoff_times key with
          | none => { res.2 with backoff_times := aset res.2.backoff_times key 1 }
          | some b =>
            match AdvancedRateLimiter.get_config name scope with
            | some config =>
              let newBackoff := min (b * config.backoff_factor) config.max_backoff
              { res.2 with backoff_times := aset res.2.backoff_times key newBackoff }
            | none => res.2
        let slept := (alookup st2.backoff_times key).getD 0
        AdvancedRateLimiter.backoffLoop name scope user_id resource key max_attempts times
          fuel (attempt + 1) st2 (sleeps ++ [slept])
      else
        AdvancedRateLimiter.backoffLoop name scope user_id resource key max_attempts times
          fuel (attempt + 1) res.2 sleeps

/-- `AdvancedRateLimiter.acquire_with_backoff`. -/
def AdvancedRateLimiter.acquire_with_backoff (st : AdvancedRateLimiter) (name scope : String)
    (user_id resource : Option String) (max_attempts : ℕ) (times : ℕ → ℚ) :
    Bool × AdvancedRateLimiter × List ℚ :=
  AdvancedRateLimiter.backoffLoop name scope user_id resource
    (scope ++ ":" ++ name ++ ":" ++ pyOptStr user_id ++ ":" ++ pyOptStr resource)
    max_attempts times max_attempts 0 st []

/-- C3 counterexample: with the named limiter `default:api` holding 5 tokens
and a registered global limiter holding 0, `check_limits` is denied by the
global limiter and returns `False` — but the named limiter's capacity has
already been consumed (its tokens drop from 5 to 4, with no rollback),
refuting the claimed all-or-nothing behaviour. -/
theorem C3_counterexample :
    (AdvancedRateLimiter.check_limits
        ⟨[("default:api", ⟨5, 0, 5, 0⟩)], [], [("global:all", ⟨5, 0, 0, 0⟩)], []⟩
        "api" "default" none none 0).1 = false ∧
      alookup (AdvancedRateLimiter.check_limits
        ⟨[("default:api", ⟨5, 0, 5, 0⟩)], [], [("global:all", ⟨5, 0, 0, 0⟩)], []⟩
        "api" "default" none none 0).2.limiters "default:api" =
        some ⟨5, 0, 4, 0⟩ := by
  simp only [AdvancedRateLimiter.check_limits,
    show ("default" ++ ":" ++ "api" : String) = "default:api" from rfl]
  norm_num [AdvancedRateLimiter.check_hierarchical,
    AdvancedRateLimiter.check_globals, acquireGlobals, TokenBucket.acquire, alookup, aset,
    List.find?]

/-- C3 amended: `check_limits` returns `True` only if the named limiter, the
applicable hierarchical (user, resource) limiter and every registered global
limiter admit the request; but it is not all-or-nothing: when a later check
denies — the hierarchical limiter after the named limiter admitted (the
denial reachable through the public API), or a global limiter after the
earlier checks — the call returns `False` with the named limiter's capacity
already consumed and not rolled back. -/
theorem C3_amended_no_rollback (st : AdvancedRateLimiter)
    (name scope u r : String) (now : ℚ) (b ub : TokenBucket)
    (resmap : List (String × RateLimitConfig)) (config : RateLimitConfig)
    (hu : ¬ u = "") (hrr : ¬ r = "")
    (hb : alookup st.limiters (scope ++ ":" ++ name) = some b)
    (hacq : (b.acquire 1 now).1 = true)
    (hresmap : alookup st.hierarchical_limits u = some resmap)
    (hconfig : alookup resmap r = some config)
    (hub : alookup st.limiters ("user" ++ ":" ++ (u ++ ":" ++ r)) = some ub)
    (hukey : ¬ ("user" ++ ":" ++ (u ++ ":" ++ r)) = (scope ++ ":" ++ name))
    (hdeny : (ub.acquire 1 now).1 = false) :
    (st.check_limits name scope (some u) (some r) now).1 = false ∧
      alookup (st.check_limits name scope (some u) (some r) now).2.limiters
        (scope ++ ":" ++ name) = some (b.acquire 1 now).2 ∧
      (∀ (st' : AdvancedRateLimiter) (n s : String) (t : ℚ) (b' : TokenBucket),
        alookup st'.limiters (s ++ ":" ++ n) = some b' →
        (b'.acquire 1 t).1 = true →
        (acquireGlobals t st'.global_limiters).1 = false →
        (st'.check_limits n s none none t).1 = false ∧
          alookup (st'.check_limits n s none none t).2.limiters (s ++ ":" ++ n) =
            some (b'.acquire 1 t).2) ∧
      (∀ (st' : AdvancedRateLimiter) (n s u' r' : String) (t : ℚ) (b' ub' : TokenBucket)
        (resmap' : List (String × RateLimitConfig)) (config' : RateLimitConfig),
        alookup st'.limiters (s ++ ":" ++ n) = some b' →
        ¬ u' = "" → ¬ r' = "" →
        alookup st'.hierarchical_limits u' = some resmap' →
        alookup resmap' r' = some config' →
        alookup st'.limiters ("user" ++ ":" ++ (u' ++ ":" ++ r')) = some ub' →
        ¬ ("user" ++ ":" ++ (u' ++ ":" ++ r')) = (s ++ ":" ++ n) →
        (st'.check_limits n s (some u') (some r') t).1 = true →
        (b'.acquire 1 t).1 = true ∧ (ub'.acquire 1 t).1 = true ∧
          (acquireGlobals t st'.global_limiters).1 = true) ∧
      (∀ (st' : AdvancedRateLimiter) (n s : String) (t : ℚ) (b' : TokenBucket),
        alookup st'.limiters (s ++ ":" ++ n) = some b' →
        (st'.check_limits n s none none t).1 = true →
        (b'.acquire 1 t).1 = true ∧ (acquireGlobals t st'.global_limiters).1 = true) := by
  have h1 : alookup (aset st.limiters (scope ++ ":" ++ name) (b.acquire 1 now).2)
      ("user" ++ ":" ++ (u ++ ":" ++ r)) = some ub := by
    rw [alookup_aset_ne _ _ _ _ hukey]
    exact hub
  have h2 : alookup (aset (aset st.limiters (scope ++ ":" ++ name) (b.acquire 1 now).2)
      ("user" ++ ":" ++ (u ++ ":" ++ r)) (ub.acquire 1 now).2) (scope ++ ":" ++ name) =
      some (b.acquire 1 now).2 := by
    rw [alookup_aset_ne _ _ _ _ (fun he => hukey he.symm)]
    exact alookup_aset_self _ _ _
  simp at h1 h2
  refine ⟨?_, ?_, ?_, ?_, ?_⟩
  · simp [AdvancedRateLimiter.check_limits, hb, hacq,
      AdvancedRateLimiter.check_hierarchical, hu, hrr, hresmap, hconfig, h1, hdeny]
  · simp [AdvancedRateLimiter.check_limits, hb, hacq,
      AdvancedRateLimiter.check_hierarchical, hu, hrr, hresmap, hconfig, h1, hdeny, h2]
  · intro st' n s t b' hb' hacq' hglob'
    constructor
    · simp [AdvancedRateLimiter.check_limits, hb', hacq',
        AdvancedRateLimiter.check_hierarchical, AdvancedRateLimiter.check_globals, hglob']
    · simp [AdvancedRateLimiter.check_limits, hb', hacq',
        AdvancedRateLimiter.check_hierarchical, AdvancedRateLimiter.check_globals,
        alookup_aset_self]
  · intro st' n s u' r' t b' ub' resmap' config' hb' hu' hr' hrm' hcfg' hub' hne' htrue
    cases hres : (b'.acquire 1 t).1 with
    | false =>
      exfalso
      rw [AdvancedRateLimiter.check_limits] at htrue
      simp [hb', hres] at htrue
    | true =>
      have hlk : alookup (aset st'.limiters (s ++ ":" ++ n) (b'.acquire 1 t).2)
          ("user" ++ ":" ++ (u' ++ ":" ++ r')) = some ub' := by
        rw [alookup_aset_ne _ _ _ _ hne']
        exact hub'
      simp at hlk
      rw [AdvancedRateLimiter.check_limits] at htrue
      simp only [hb', hres, if_true] at htrue
      cases hres2 : (ub'.acquire 1 t).1 with
      | false =>
        exfalso
        rw [AdvancedRateLimiter.check_hierarchical] at htrue
        simp [hu', hr', hrm', hcfg', hlk, hres2] at htrue
      | true =>
        refine ⟨rfl, rfl, ?_⟩
        rw [AdvancedRateLimiter.check_hierarchical] at htrue
        simp [hu', hr', hrm', hcfg', hlk, hres2, AdvancedRateLimiter.check_globals] at htrue
        exact htrue
  · intro st' n s t b' hb' htrue
    cases hres : (b'.acquire 1 t).1
    · rw [AdvancedRateLimiter.check_limits] at htrue
      simp [hb', hres] at htrue
    · refine ⟨rfl, ?_⟩
      rw [AdvancedRateLimiter.check_limits] at htrue
      simp only [hb', hres] at htrue
      simpa [AdvancedRateLimiter.check_hierarchical, AdvancedRateLimiter.check_globals]
        using htrue

/-- Witness for C3's amended theorem: the named limiter `default:api` holds 5
tokens and admits; the hierarchical limiter `user:alice:doc` configured for
(alice, doc) holds 0 tokens and denies; `check_limits` returns `False` with
the named limiter's token consumed. -/
theorem C3_amended_no_rollback_witness :
    (AdvancedRateLimiter.check_limits
        ⟨[("default:api", ⟨5, 0, 5, 0⟩), ("user:alice:doc", ⟨5, 0, 0, 0⟩)],
          [("alice", [("doc", ⟨5, 1, 0, 3/2, 300⟩)])], [], []⟩
        "api" "default" (some "alice") (some "doc") 0).1 = false ∧
      alookup (AdvancedRateLimiter.check_limits
          ⟨[("default:api", ⟨5, 0, 5, 0⟩), ("user:alice:doc", ⟨5, 0, 0, 0⟩)],
            [("alice", [("doc", ⟨5, 1, 0, 3/2, 300⟩)])], [], []⟩
          "api" "default" (some "alice") (some "doc") 0).2.limiters
        ("default" ++ ":" ++ "api") = some ((⟨5, 0, 5, 0⟩ : TokenBucket).acquire 1 0).2 ∧
      (∀ (st' : AdvancedRateLimiter) (n s : String) (t : ℚ) (b' : TokenBucket),
        alookup st'.limiters (s ++ ":" ++ n) = some b' →
        (b'.acquire 1 t).1 = true →
        (acquireGlobals t st'.global_limiters).1 = false →
        (st'.check_limits n s none none t).1 = false ∧
          alookup (st'.check_limits n s none none t).2.limiters (s ++ ":" ++ n) =
            some (b'.acquire 1 t).2) ∧
      (∀ (st' : AdvancedRateLimiter) (n s u' r' : String) (t : ℚ) (b' ub' : TokenBucket)
        (resmap' : List (String × RateLimitConfig)) (config' : RateLimitConfig),
        alookup st'.limiters (s ++ ":" ++ n) = some b' →
        ¬ u' = "" → ¬ r' = "" →
        alookup st'.hierarchical_limits u' = some resmap' →
        alookup resmap' r' = some config' →
        alookup st'.limiters ("user" ++ ":" ++ (u' ++ ":" ++ r')) = some ub' →
        ¬ ("user" ++ ":" ++ (u' ++ ":" ++ r')) = (s ++ ":" ++ n) →
        (st'.check_limits n s (some u') (some r') t).1 = true →
        (b'.acquire 1 t).1 = true ∧ (ub'.acquire 1 t).1 = true ∧
          (acquireGlobals t st'.global_limiters).1 = true) ∧
      (∀ (st' : AdvancedRateLimiter) (n s : String) (t : ℚ) (b' : TokenBucket),
        alookup st'.limiters (s ++ ":" ++ n) = some b' →
        (st'.check_limits n s none none t).1 = true →
        (b'.acquire 1 t).1 = true ∧ (acquireGlobals t st'.global_limiters).1 = true) :=
  C3_amended_no_rollback
    ⟨[("default:api", ⟨5, 0, 5, 0⟩), ("user:alice:doc", ⟨5, 0, 0, 0⟩)],
      [("alice", [("doc", ⟨5, 1, 0, 3/2, 300⟩)])], [], []⟩
    "api" "default" "alice" "doc" 0 ⟨5, 0, 5, 0⟩ ⟨5, 0, 0, 0⟩
    [("doc", ⟨5, 1, 0, 3/2, 300⟩)] ⟨5, 1, 0, 3/2, 300⟩
    (by simp) (by simp)
    (by simp [alookup, List.find?])
    (by norm_num [TokenBucket.acquire])
    (by simp [alookup, List.find?])
    (by simp [alookup, List.find?])
    (by simp [alookup, List.find?])
    (by simp)
    (by norm_num [TokenBucket.acquire])

/-- C4: evaluation of `acquire_with_backoff` at a registry whose named limiter
always denies, with `max_attempts = 3`. Because `_get_config` is a stub that
always returns `None`, the backoff stored for the key is set to `1.0` at the
first denial and never multiplied by `backoff_factor` afterwards: both sleeps
last exactly 1 second, contradicting the exponential growth promised by the
method's own docstring. -/
theorem C4_constant_backoff_evaluation :
    (∀ (name scope : String), AdvancedRateLimiter.get_config name scope = none) ∧
      (AdvancedRateLimiter.acquire_with_backoff
          ⟨[("default:api", ⟨5, 0, 0, 0⟩)], [], [], []⟩
          "api" "default" none none 3 (fun _ => 0)).2.2 = [1, 1] ∧
      (AdvancedRateLimiter.acquire_with_backoff
          ⟨[("default:api", ⟨5, 0, 0, 0⟩)], [], [], []⟩
          "api" "default" none none 3 (fun _ => 0)).1 = false := by
  refine ⟨fun _ _ => rfl, ?_⟩
  simp only [AdvancedRateLimiter.acquire_with_backoff, pyOptStr,
    show ("default" ++ ":" ++ "api" ++ ":" ++ "None" ++ ":" ++ "None" : String) =
      "default:api:None:None" from rfl]
  norm_num [AdvancedRateLimiter.backoffLoop, AdvancedRateLimiter.check_limits,
    AdvancedRateLimiter.check_hierarchical, AdvancedRateLimiter.check_globals,
    acquireGlobals, AdvancedRateLimiter.get_config, TokenBucket.acquire, alookup, aset,
    List.find?, show ("default" ++ ":" ++ "api" : String) = "default:api" from rfl]

/-! ## In-memory cache backend (`MemoryCacheBackend`, advanced_cache.py
lines 131-254)

Python values are modelled as `Option β`: `none` is Python `None`, so a
backend `get` returning `none` — for a missing key, an expired entry, or a
stored `None` — is exactly the flat Python return value. The entry's `size`
field (a pickle byte count used only for logging/stats) is omitted. `ttl` on
an entry is `Option ℚ` as in the `CacheEntry` dataclass; `set` stores
`ttl or config.default_ttl`, where Python's `or` falls through on the falsy
values `None` and `0`. -/

inductive CacheStrategy where
  | LRU
  | LFU
  | FIFO
  | TTL
  | ADAPTIVE
deriving DecidableEq, Repr

structure CacheEntry (β : Type) where
  value : Option β
  created_at : ℚ
  last_accessed : ℚ
  access_count : ℕ
  ttl : Option ℚ
deriving DecidableEq, Repr

/-- `CacheEntry.is_expired` at wall-clock time `now`. -/
def CacheEntry.is_expired {β : Type} (e : CacheEntry β) (now : ℚ) : Bool :=
  match e.ttl with
  | none => false
  | some t => decide (t < now - e.created_at)

/-- Python `ttl or default_ttl` (`None` and `0` are falsy). -/
def pyTtlOrDefault (ttl : Option ℚ) (dflt : ℚ) : ℚ :=
  match ttl with
  | none => dflt
  | some t => if t = 0 then dflt else t

structure MemoryCacheBackend (β : Type) where
  max_size : ℕ
  default_ttl : ℚ
  strategy : CacheStrategy
  lazy_expiration : Bool
  store : List (String × CacheEntry β)
  access_order : List (String × ℚ)
  frequency_counter : List (String × ℕ)
deriving DecidableEq, Repr

/-- `MemoryCacheBackend._update_access_patterns`: move the key to the end of
the LRU order with the current time, and bump its frequency count. -/
def MemoryCacheBackend.update_access_patterns {β : Type} (m : MemoryCacheBackend β)
    (key : String) (now : ℚ) : MemoryCacheBackend β :=
  { m with
    access_order := aset (adel m.access_order key) key now,
    frequency_counter :=
      aset m.frequency_counter key ((alookup m.frequency_counter key).getD 0 + 1) }

/-- `MemoryCacheBackend._evict`: drop the key from all three structures. -/
def MemoryCacheBackend.evict {β : Type} (m : MemoryCacheBackend β) (key : String) :
    MemoryCacheBackend β :=
  { m with store := adel m.store key, access_order := adel m.access_order key,
           frequency_counter := adel m.frequency_counter key }

/-- `MemoryCacheBackend._evict_lru`: strategy-dependent eviction of a single
entry; a no-op when `access_order` is empty (and for the ADAPTIVE strategy,
which has no branch in the source's if-chain). Python's `min` returns the
first minimal element in iteration order, reproduced by the folds. -/
def MemoryCacheBackend.evict_lru {β : Type} (m : MemoryCacheBackend β) (now : ℚ) :
    MemoryCacheBackend β :=
  match m.access_order with
  | [] => m
  | a0 :: _ =>
    match m.strategy with
    | CacheStrategy.LRU => m.evict a0.1
    | CacheStrategy.LFU =>
      match m.frequency_counter with
      | [] => m
      | f0 :: _ =>
        let min_freq := (m.frequency_counter.map Prod.snd).foldl Nat.min f0.2
        match m.frequency_counter.find? (fun p => p.2 == min_freq) with
        | some p => m.evict p.1
        | none => m
    | CacheStrategy.FIFO =>
      match m.store with
      | [] => m
      | s0 :: srest =>
        let oldest := srest.foldl
          (fun acc p => if p.2.created_at < acc.2.created_at then p else acc) s0
        m.evict oldest.1
    | CacheStrategy.TTL =>
      match (m.store.filter (fun p => p.2.is_expired now)).head? with
      | some p => m.evict p.1
      | none => m.evict a0.1
    | CacheStrategy.ADAPTIVE => m

/-- `MemoryCacheBackend.get`: miss on absence; on an expired entry evict and
miss when `lazy_expiration` is set (otherwise fall through and serve the
stale entry); on a served entry `touch` it and refresh access patterns. -/
def MemoryCacheBackend.get {β : Type} (m : MemoryCacheBackend β) (key : String) (now : ℚ) :
    Option β × MemoryCacheBackend β :=
  match alookup m.store key with
  | none => (none, m)
  | some entry =>
    if entry.is_expired now && m.lazy_expiration then (none, m.evict key)
    else
      let entry2 := { entry with last_accessed := now, access_count := entry.access_count + 1 }
      let m1 := { m with store := aset m.store key entry2 }
      (entry.value, m1.update_access_patterns key now)

/-- `MemoryCacheBackend.set`: build the entry (with effective ttl
`ttl or default_ttl`), evict one entry when the store is full and the key is
new, then store the entry and refresh access patterns; always returns True. -/
def MemoryCacheBackend.set {β : Type} (m : MemoryCacheBackend β) (key : String)
    (value : Option β) (ttl : Option ℚ) (now : ℚ) : Bool × MemoryCacheBackend β :=
  let entry : CacheEntry β :=
    { value := value, created_at := now, last_accessed := now, access_count := 0,
      ttl := some (pyTtlOrDefault ttl m.default_ttl) }
  let m1 := if m.max_size ≤ m.store.length ∧ (alookup m.store key).isNone = true
            then m.evict_lru now else m
  let m2 := { m1 with store := aset m1.store key entry }
  (true, m2.update_access_patterns key now)

theorem MemoryCacheBackend.set_lookup {β : Type} (m : MemoryCacheBackend β) (key : String)
    (value : Option β) (ttl : Option ℚ) (now : ℚ) :
    alookup (m.set key value ttl now).2.store key =
      some { value := value, created_at := now, last_accessed := now, access_count := 0,
             ttl := some (pyTtlOrDefault ttl m.default_ttl) } := by
  simp [MemoryCacheBackend.set, MemoryCacheBackend.update_access_patterns, alookup_aset_self]

theorem MemoryCacheBackend.get_default_ttl {β : Type} (m : MemoryCacheBackend β)
    (key : String) (now : ℚ) :
    (m.get key now).2.default_ttl = m.default_ttl := by
  unfold MemoryCacheBackend.get
  rcases alookup m.store key with _ | entry
  · rfl
  · by_cases h : (entry.is_expired now && m.lazy_expiration) = true
    · simp [h, MemoryCacheBackend.evict]
    · simp [h, MemoryCacheBackend.update_access_patterns]

/-- A `set` immediately followed by a `get` of the same key at the same time
returns the value just stored, whenever the effective ttl is nonnegative
(`set` always finishes by storing the entry under the key, after any
eviction, so the new entry is what `get` finds). -/
theorem MemoryCacheBackend.set_get_same {β : Type} (m : MemoryCacheBackend β) (key : String)
    (value : Option β) (ttl : Option ℚ) (now : ℚ)
    (httl : 0 ≤ pyTtlOrDefault ttl m.default_ttl) :
    ((m.set key value ttl now).2.get key now).1 = value := by
  have hlook := MemoryCacheBackend.set_lookup m key value ttl now
  have hexp : ¬ (pyTtlOrDefault ttl m.default_ttl < 0) := not_lt.mpr httl
  simp [MemoryCacheBackend.get, hlook, CacheEntry.is_expired, hexp]

/-- C6: in the in-memory backend, `set(k, v)` immediately followed by
`get(k)` returns `v` for every key, value and prior state, whenever the
effective ttl (`ttl or default_ttl`) is nonnegative. The claim's eviction
carve-out never bites: eviction runs before the new entry is stored and only
removes a key already present (while `set` evicts only when `k` is absent),
so `k` is never the evicted key and the freshly stored entry is always what
`get` finds. -/
theorem C6_set_get_roundtrip {β : Type} (m : MemoryCacheBackend β) (key : String)
    (value : Option β) (ttl : Option ℚ) (now : ℚ)
    (httl : 0 ≤ pyTtlOrDefault ttl m.default_ttl) :
    ((m.set key value ttl now).2.get key now).1 = value :=
  MemoryCacheBackend.set_get_same m key value ttl now httl

/-- Witness for C6: storing 42 under "k" in an empty LRU backend with
`max_size = 2` and `default_ttl = 3600` and reading it back. -/
theorem C6_set_get_roundtrip_witness :
    (0 : ℚ) ≤ pyTtlOrDefault none (3600 : ℚ) ∧
      (((⟨2, 3600, CacheStrategy.LRU, true, [], [], []⟩ : MemoryCacheBackend ℕ).set
          "k" (some 42) none 0).2.get "k" 0).1 = some 42 :=
  ⟨by norm_num [pyTtlOrDefault],
    C6_set_get_roundtrip ⟨2, 3600, CacheStrategy.LRU, true, [], [], []⟩ "k" (some 42) none 0
      (by norm_num [pyTtlOrDefault])⟩

/-! ## Multi-level cache (`MultiLevelCache`, advanced_cache.py lines 450-559)

Both levels are in-memory backends (the registry of claims under study
concerns the L1/L2 composition, which goes through the common backend
interface). The `value is not None` tests of the source are the `Option`
matches. Promotion calls `self.l1.set(key, value)` with no ttl argument. -/

structure MLStats where
  l1_hits : ℕ
  l1_misses : ℕ
  l2_hits : ℕ
  l2_misses : ℕ
  promotions : ℕ
deriving DecidableEq, Repr

structure MultiLevelCache (β : Type) where
  l1 : MemoryCacheBackend β
  l2 : MemoryCacheBackend β
  stats : MLStats
deriving DecidableEq, Repr

/-- `MultiLevelCache.get`: L1 first (stop on hit), then L2 with promotion to
L1 on hit, else a double miss. -/
def MultiLevelCache.get {β : Type} (c : MultiLevelCache β) (key : String) (now : ℚ) :
    Option β × MultiLevelCache β :=
  let r1 := c.l1.get key now
  match r1.1 with
  | some v =>
    (some v,
      { c with
        l1 := r1.2,
        stats := { c.stats with l1_hits := c.stats.l1_hits + 1 } })
  | none =>
    let c1 :=
      { c with
        l1 := r1.2,
        stats := { c.stats with l1_misses := c.stats.l1_misses + 1 } }
    let r2 := c1.l2.get key now
    match r2.1 with
    | some v =>
      let p := c1.l1.set key (some v) none now
      (some v,
        { c1 with
          l1 := p.2,
          l2 := r2.2,
          stats :=
            { c1.stats with
              l2_hits := c1.stats.l2_hits + 1,
              promotions := c1.stats.promotions + 1 } })
    | none =>
      (none,
        { c1 with
          l2 := r2.2,
          stats := { c1.stats with l2_misses := c1.stats.l2_misses + 1 } })

theorem MultiLevelCache.get_l1_hit {β : Type} (c : MultiLevelCache β) (key : String)
    (now : ℚ) (v : β) (h : (c.l1.get key now).1 = some v) :
    (c.get key now).1 = some v ∧ (c.get key now).2.l2 = c.l2 ∧
      (c.get key now).2.stats.l1_hits = c.stats.l1_hits + 1 := by
  simp [MultiLevelCache.get, h]

/-- C7: a `get` on a key missing in L1 whose L2 lookup yields a (non-`None`,
unexpired, hence served) value `w` returns `w` and promotes it into L1, so
an immediately subsequent `get` for the same key is served by L1 (it returns
`w`, leaves L2 untouched, and counts an L1 hit); moreover an L1 hit always
stops the lookup without consulting L2, and a miss in both levels returns
absent. -/
theorem C7_multilevel_promotion {β : Type} (c : MultiLevelCache β) (key : String)
    (now : ℚ) (w : β)
    (h1 : (c.l1.get key now).1 = none)
    (h2 : (c.l2.get key now).1 = some w)
    (httl : 0 ≤ c.l1.default_ttl) :
    (c.get key now).1 = some w ∧
      ((c.get key now).2.get key now).1 = some w ∧
      ((c.get key now).2.get key now).2.l2 = (c.get key now).2.l2 ∧
      ((c.get key now).2.get key now).2.stats.l1_hits = (c.get key now).2.stats.l1_hits + 1 ∧
      (∀ (c0 : MultiLevelCache β) (k : String) (t : ℚ) (v : β),
        (c0.l1.get k t).1 = some v →
        (c0.get k t).1 = some v ∧ (c0.get k t).2.l2 = c0.l2 ∧
          (c0.get k t).2.stats.l1_hits = c0.stats.l1_hits + 1) ∧
      (∀ (c0 : MultiLevelCache β) (k : String) (t : ℚ),
        (c0.l1.get k t).1 = none → (c0.l2.get k t).1 = none → (c0.get k t).1 = none) := by
  have hpromL1 : (c.get key now).2.l1 = ((c.l1.get key now).2.set key (some w) none now).2 := by
    simp [MultiLevelCache.get, h1, h2]
  have hset : (((c.l1.get key now).2.set key (some w) none now).2.get key now).1 = some w := by
    apply MemoryCacheBackend.set_get_same
    simpa [pyTtlOrDefault, MemoryCacheBackend.get_default_ttl] using httl
  have hl1hit : ((c.get key now).2.l1.get key now).1 = some w := by
    rw [hpromL1]
    exact hset
  obtain ⟨ha, hb, hc⟩ := MultiLevelCache.get_l1_hit (c.get key now).2 key now w hl1hit
  refine ⟨?_, ha, hb, hc, ?_, ?_⟩
  · simp [MultiLevelCache.get, h1, h2]
  · intro c0 k t v h
    exact MultiLevelCache.get_l1_hit c0 k t v h
  · intro c0 k t ha1 ha2
    simp [MultiLevelCache.get, ha1, ha2]

/-- Cache state for the C7 witness: key "k" absent in L1 and held in L2 with
value 7 and ttl 3600. -/
def mlcWitnessState : MultiLevelCache ℕ :=
  { l1 := ⟨2, 3600, CacheStrategy.LRU, true, [], [], []⟩,
    l2 := ⟨20, 3600, CacheStrategy.LRU, true,
           [("k", ⟨some 7, 0, 0, 0, some 3600⟩)], [("k", 0)], [("k", 1)]⟩,
    stats := ⟨0, 0, 0, 0, 0⟩ }

/-- Witness for C7 at `mlcWitnessState`. -/
theorem C7_multilevel_promotion_witness :
    (mlcWitnessState.get "k" 0).1 = some 7 ∧
      ((mlcWitnessState.get "k" 0).2.get "k" 0).1 = some 7 ∧
      ((mlcWitnessState.get "k" 0).2.get "k" 0).2.l2 = (mlcWitnessState.get "k" 0).2.l2 ∧
      ((mlcWitnessState.get "k" 0).2.get "k" 0).2.stats.l1_hits =
        (mlcWitnessState.get "k" 0).2.stats.l1_hits + 1 ∧
      (∀ (c0 : MultiLevelCache ℕ) (k : String) (t : ℚ) (v : ℕ),
        (c0.l1.get k t).1 = some v →
        (c0.get k t).1 = some v ∧ (c0.get k t).2.l2 = c0.l2 ∧
          (c0.get k t).2.stats.l1_hits = c0.stats.l1_hits + 1) ∧
      (∀ (c0 : MultiLevelCache ℕ) (k : String) (t : ℚ),
        (c0.l1.get k t).1 = none → (c0.l2.get k t).1 = none → (c0.get k t).1 = none) :=
  C7_multilevel_promotion mlcWitnessState "k" 0 7
    (by norm_num [MemoryCacheBackend.get, alookup, List.find?, mlcWitnessState])
    (by norm_num [MemoryCacheBackend.get, alookup, List.find?, CacheEntry.is_expired,
      mlcWitnessState])
    (by norm_num [mlcWitnessState])

/-! ## Cache facade (`AdvancedCache`, advanced_cache.py lines 562-702)

The facade wraps a single in-memory backend. `AdvancedCache.get` returns the
backend value unless it `is None`, in which case it returns `default`; the
`memoize` wrapper and `cache_aside` are modelled per call, with the wrapped
function / loader represented by the value it would return (`fres` /
`loaded`) and a Boolean recording whether it was invoked. -/

theorem MemoryCacheBackend.get_stored_none {β : Type} (m : MemoryCacheBackend β)
    (key : String) (now : ℚ) (e : CacheEntry β)
    (he : alookup m.store key = some e) (hv : e.value = none) :
    (m.get key now).1 = none := by
  by_cases h : (e.is_expired now && m.lazy_expiration) = true
  · simp [MemoryCacheBackend.get, he, h]
  · simp [MemoryCacheBackend.get, he, h, hv]

/-- `AdvancedCache.get(key, default)`. -/
def AdvancedCache.get {β : Type} (c : MemoryCacheBackend β) (key : String)
    (dflt : Option β) (now : ℚ) : Option β × MemoryCacheBackend β :=
  let r := c.get key now
  (match r.1 with
   | some v => some v
   | none => dflt, r.2)

/-- One call of a function wrapped by `AdvancedCache.memoize`: look up the
cache key (default `None`); on a non-`None` cached result return it without
invoking the function; otherwise invoke the function (its result is `fres`),
cache it, and return it. The last component records whether the wrapped
function was invoked. -/
def AdvancedCache.memoizeCall {β : Type} (c : MemoryCacheBackend β) (cache_key : String)
    (fres : Option β) (ttl : Option ℚ) (now : ℚ) :
    Option β × MemoryCacheBackend β × Bool :=
  let r := AdvancedCache.get c cache_key none now
  match r.1 with
  | some v => (some v, r.2, false)
  | none =>
    let s := (r.2).set cache_key fres ttl now
    (fres, s.2, true)

/-- `AdvancedCache.cache_aside(key, loader_func, ttl)`: return the cached
value when not `None`, else invoke the loader (returning `loaded`), cache and
return it. The last component records whether the loader was invoked. -/
def AdvancedCache.cache_aside {β : Type} (c : MemoryCacheBackend β) (key : String)
    (loaded : Option β) (ttl : Option ℚ) (now : ℚ) :
    Option β × MemoryCacheBackend β × Bool :=
  let r := AdvancedCache.get c key none now
  match r.1 with
  | some v => (some v, r.2, false)
  | none =>
    let s := (r.2).set key loaded ttl now
    (loaded, s.2, true)

/-- C9: at the facade a stored `None` is indistinguishable from absence:
`get(key, default)` returns `default` when the stored value is `None`; a
memoized function whose result was `None` is invoked again on the next call
(the `None` result was cached but is never reused); and `cache_aside`
re-invokes its loader whenever the cached value is `None`. -/
theorem C9_none_indistinguishable_from_absence {β : Type}
    (c : MemoryCacheBackend β) (key : String) (dflt : Option β) (now : ℚ)
    (e : CacheEntry β) (he : alookup c.store key = some e) (hv : e.value = none) :
    (AdvancedCache.get c key dflt now).1 = dflt ∧
      (∀ (c0 : MemoryCacheBackend β) (k : String) (ttl ttl' : Option ℚ) (t t' : ℚ)
        (fres' : Option β),
        (AdvancedCache.memoizeCall c0 k none ttl t).2.2 = true →
        (AdvancedCache.memoizeCall (AdvancedCache.memoizeCall c0 k none ttl t).2.1
          k fres' ttl' t').2.2 = true) ∧
      (∀ (c0 : MemoryCacheBackend β) (k : String) (loaded : Option β) (ttl : Option ℚ)
        (t : ℚ) (e0 : CacheEntry β),
        alookup c0.store k = some e0 → e0.value = none →
        (AdvancedCache.cache_aside c0 k loaded ttl t).2.2 = true) := by
  refine ⟨?_, ?_, ?_⟩
  · have hn := MemoryCacheBackend.get_stored_none c key now e he hv
    simp [AdvancedCache.get, hn]
  · intro c0 k ttl ttl' t t' fres' hexec
    cases hr : (AdvancedCache.get c0 k none t).1
    · have hl := MemoryCacheBackend.set_lookup (AdvancedCache.get c0 k none t).2 k none ttl t
      have hg := MemoryCacheBackend.get_stored_none
        ((AdvancedCache.get c0 k none t).2.set k none ttl t).2 k t' _ hl rfl
      have hg2 : (AdvancedCache.get ((AdvancedCache.get c0 k none t).2.set k none ttl t).2
          k none t').1 = none := by
        simp only [AdvancedCache.get] at hg
        simp only [AdvancedCache.get, hg]
      simp [AdvancedCache.memoizeCall, hr, hg2]
    · simp [AdvancedCache.memoizeCall, hr] at hexec
  · intro c0 k loaded ttl t e0 he0 hv0
    have hg := MemoryCacheBackend.get_stored_none c0 k t e0 he0 hv0
    simp [AdvancedCache.cache_aside, AdvancedCache.get, hg]

/-- Witness for C9 at a backend holding a stored `None` under "k". -/
theorem C9_none_indistinguishable_from_absence_witness :
    (AdvancedCache.get
        (⟨10, 3600, CacheStrategy.LRU, true, [("k", ⟨none, 0, 0, 0, some 3600⟩)],
          [("k", 0)], [("k", 1)]⟩ : MemoryCacheBackend ℕ) "k" (some 99) 0).1 = some 99 ∧
      (∀ (c0 : MemoryCacheBackend ℕ) (k : String) (ttl ttl' : Option ℚ) (t t' : ℚ)
        (fres' : Option ℕ),
        (AdvancedCache.memoizeCall c0 k none ttl t).2.2 = true →
        (AdvancedCache.memoizeCall (AdvancedCache.memoizeCall c0 k none ttl t).2.1
          k fres' ttl' t').2.2 = true) ∧
      (∀ (c0 : MemoryCacheBackend ℕ) (k : String) (loaded : Option ℕ) (ttl : Option ℚ)
        (t : ℚ) (e0 : CacheEntry ℕ),
        alookup c0.store k = some e0 → e0.value = none →
        (AdvancedCache.cache_aside c0 k loaded ttl t).2.2 = true) :=
  C9_none_indistinguishable_from_absence
    ⟨10, 3600, CacheStrategy.LRU, true, [("k", ⟨none, 0, 0, 0, some 3600⟩)],
      [("k", 0)], [("k", 1)]⟩ "k" (some 99) 0 ⟨none, 0, 0, 0, some 3600⟩
    (by simp [alookup, List.find?]) rfl
